import Mathlib

/-!
Verification of the sqldb Table contract (src/include/Table.h) against its
natural-language specification.  The header's concrete default algorithms are
embedded shallowly: pure lookups become Lean functions, the stateful parts
(filter map, schema, the append merge loop) become explicit state passing or
operation traces over explicit state types.
-/

set_option maxHeartbeats 1000000
set_option linter.unusedVariables false

namespace Sqldb

/-- The closed set of column value kinds (ColumnType.h is referenced by
Table.h; the variant list is fixed by the switch in Table::append and by the
spec's data model). -/
inductive ColumnType
  | BOOL
  | ENUM
  | INTEGER
  | DATETIME
  | DATE
  | DOUBLE
  | ANY
  | TEXT
  | URL
  | TEXT_KEY
  | BINARY_KEY
  | CHAR
  | VARCHAR
  | BLOB
  | VECTOR
deriving DecidableEq, Repr

/-- sqldb::Key is an opaque, hashable, equality-comparable row identifier;
only equality is used by the embedded code, so it is modelled by Nat. -/
abbrev Key := Nat

/-- A robin_hood::unordered_flat_set of Keys, modelled by the list of its
elements.  The embedded code never computes set operations on a stored
filter set: it only stores and returns them, so the carrier is irrelevant. -/
abbrev KeySet := List Key

/-- The std::unordered_map from column index to key set
(Table::filter_), modelled as an association list whose keys are kept
duplicate-free by the operations below. -/
abbrev FilterMap := List (Int × KeySet)

/-- filter_.count(col): the number of entries whose key is col. -/
def filterCount (m : FilterMap) (col : Int) : Nat :=
  (m.filter (fun e => e.1 == col)).length

/-- Table::hasFilter: return filter_.count(col) != 0. -/
def hasFilter (m : FilterMap) (col : Int) : Bool :=
  filterCount m col != 0

/-- Table::clearFilter: filter_.erase(col). -/
def clearFilter (m : FilterMap) (col : Int) : FilterMap :=
  m.filter (fun e => e.1 != col)

/-- Table::setFilter: filter_.emplace(col, std::move(keys)).
unordered_map::emplace inserts the pair only when no entry with key col is
present; when one is present the map is left unchanged. -/
def setFilter (m : FilterMap) (col : Int) (keys : KeySet) : FilterMap :=
  if filterCount m col != 0 then m else (col, keys) :: m

/-- Lookup of the key set stored for col in the map returned by
Table::getFilter. -/
def getFilterAt (m : FilterMap) (col : Int) : Option KeySet :=
  (m.find? (fun e => e.1 == col)).map Prod.snd

/-- A single mutation of the filter state, for reasoning about sequences of
setFilter / clearFilter calls. -/
inductive FilterOp
  | set (col : Int) (keys : KeySet)
  | clear (col : Int)
deriving DecidableEq

/-- Run one filter mutation. -/
def applyFilterOp (m : FilterMap) : FilterOp → FilterMap
  | .set col keys => setFilter m col keys
  | .clear col => clearFilter m col

/-- Run a sequence of filter mutations from left to right. -/
def applyFilterOps (m : FilterMap) (ops : List FilterOp) : FilterMap :=
  ops.foldl applyFilterOp m

/-- One column of a schema, also the argument record of one
Table::addColumn call: (name, type, nullable, unique, decimals). -/
structure Column where
  name : String
  typ : ColumnType
  nullable : Bool
  unique : Bool
  decimals : Int
deriving DecidableEq, Repr

/-- The virtual Table::addColumn, observed as the record of its arguments. -/
def addColumnCall (name : String) (typ : ColumnType) (nullable : Bool)
    (unique : Bool) (decimals : Int) : Column :=
  ⟨name, typ, nullable, unique, decimals⟩

/-- Table::addIntegerColumn: addColumn(name, INTEGER, nullable, unique);
the C++ default decimals = -1 is written out. -/
def addIntegerColumn (name : String) (nullable : Bool) (unique : Bool) : Column :=
  addColumnCall name ColumnType.INTEGER nullable unique (-1)

/-- Table::addCharColumn: addColumn(name, CHAR); C++ defaults
nullable = true, unique = false, decimals = -1 written out. -/
def addCharColumn (name : String) : Column :=
  addColumnCall name ColumnType.CHAR true false (-1)

/-- Table::addDateTimeColumn: addColumn(name, DATETIME). -/
def addDateTimeColumn (name : String) : Column :=
  addColumnCall name ColumnType.DATETIME true false (-1)

/-- Table::addDateColumn: addColumn(name, DATE). -/
def addDateColumn (name : String) : Column :=
  addColumnCall name ColumnType.DATE true false (-1)

/-- Table::addVarCharColumn: the source reads
addColumn(name, VARCHAR, unique) — the unique argument is passed into
addColumn's nullable parameter, the nullable argument is dropped, and
addColumn's own defaults fill unique = false and decimals = -1. -/
def addVarCharColumn (name : String) (nullable : Bool) (unique : Bool) : Column :=
  addColumnCall name ColumnType.VARCHAR unique false (-1)

/-- Table::addTextColumn: addColumn(name, TEXT). -/
def addTextColumn (name : String) : Column :=
  addColumnCall name ColumnType.TEXT true false (-1)

/-- Table::addDoubleColumn: addColumn(name, DOUBLE, nullable, unique, decimals). -/
def addDoubleColumn (name : String) (nullable : Bool) (unique : Bool)
    (decimals : Int) : Column :=
  addColumnCall name ColumnType.DOUBLE nullable unique decimals

/-- Table::addURLColumn: addColumn(name, URL). -/
def addURLColumn (name : String) : Column :=
  addColumnCall name ColumnType.URL true false (-1)

/-- Table::addTextKeyColumn: addColumn(name, TEXT_KEY). -/
def addTextKeyColumn (name : String) : Column :=
  addColumnCall name ColumnType.TEXT_KEY true false (-1)

/-- Table::addBinaryKeyColumn: addColumn(name, BINARY_KEY). -/
def addBinaryKeyColumn (name : String) : Column :=
  addColumnCall name ColumnType.BINARY_KEY true false (-1)

/-- Table::addEnumColumn: addColumn(name, ENUM). -/
def addEnumColumn (name : String) : Column :=
  addColumnCall name ColumnType.ENUM true false (-1)

/-- Table::addBoolColumn: addColumn(name, BOOL, nullable, unique). -/
def addBoolColumn (name : String) (nullable : Bool) (unique : Bool) : Column :=
  addColumnCall name ColumnType.BOOL nullable unique (-1)

/-- Table::addBlobColumn: addColumn(name, BLOB). -/
def addBlobColumn (name : String) : Column :=
  addColumnCall name ColumnType.BLOB true false (-1)

/-- The schema-level state of a table: the key-type descriptor key_type_
and the default sheet's column list, through which the base-class schema
accessors (getNumFields, getColumnName, getColumnType, isColumnNullable,
isColumnUnique, getColumnDecimals) are answered by a backend. -/
structure Schema where
  keyType : List ColumnType
  columns : List Column
deriving DecidableEq, Repr

/-- getNumFields() for the default sheet of a backend holding a Schema. -/
def schemaNumFields (s : Schema) : Nat :=
  s.columns.length

/-- The attribute record of column i of a Schema, as read back by the
per-attribute accessors in Table::append's schema-copy loop.  The default
value is never reached: the loop only asks for i < getNumFields(). -/
def getColumnRecord (s : Schema) (i : Nat) : Column :=
  s.columns.getD i ⟨"", ColumnType.INTEGER, true, false, 0⟩

/-- A schema mutation issued by Table::append: setKeyType or one
addColumn call. -/
inductive SchemaOp
  | setKeyType (kt : List ColumnType)
  | addCol (c : Column)
deriving DecidableEq, Repr

/-- The schema-copy phase of Table::append (lines 63-68 of Table.h):
if (!getNumFields()) { setKeyType(other.getKeyType());
for (i = 0; i < other.getNumFields(); i++) addColumn(attrs of column i); }
observed as the list of issued mutations, in order. -/
def appendSchemaOps (self other : Schema) : List SchemaOp :=
  if schemaNumFields self = 0 then
    SchemaOp.setKeyType other.keyType ::
      (List.range (schemaNumFields other)).map
        (fun i => SchemaOp.addCol (getColumnRecord other i))
  else []

/-- Effect of one schema mutation: setKeyType overwrites key_type_,
addColumn appends one column to the schema. -/
def applySchemaOp (s : Schema) : SchemaOp → Schema
  | .setKeyType kt => { s with keyType := kt }
  | .addCol c => { s with columns := s.columns ++ [c] }

/-- Run a list of schema mutations from left to right. -/
def applySchemaOps (s : Schema) (ops : List SchemaOp) : Schema :=
  ops.foldl applySchemaOp s

/-- A backend's sheet-addressed schema surface, as used by the column
lookup utilities: getNumFields(sheet) and getColumnName(column_index,
sheet) are arbitrary backend-supplied functions. -/
structure SheetTable where
  numFields : Nat → Nat
  colName : Nat → Nat → String

/-- The descending scan of Table::getColumnByName (lines 123-128):
for (i = getNumFields(sheet) - 1; i >= 0; i--)
if (getColumnName(i, sheet) == name) return i; return -1.
The argument is the number of indices still unscanned. -/
def getColumnByNameLoop (t : SheetTable) (name : String) (sheet : Nat) : Nat → Int
  | 0 => -1
  | i + 1 =>
    if t.colName i sheet = name then (i : Int) else getColumnByNameLoop t name sheet i

/-- Table::getColumnByName(name, sheet). -/
def getColumnByName (t : SheetTable) (name : String) (sheet : Nat) : Int :=
  getColumnByNameLoop t name sheet (t.numFields sheet)

/-- The descending scan of Table::getColumnByNames (lines 116-121):
for (i = getNumFields(sheet) - 1; i >= 0; i--)
if (names.count(getColumnName(i, sheet))) return i; return -1. -/
def getColumnByNamesLoop (t : SheetTable) (names : List String) (sheet : Nat) : Nat → Int
  | 0 => -1
  | i + 1 =>
    if t.colName i sheet ∈ names then (i : Int) else getColumnByNamesLoop t names sheet i

/-- Table::getColumnByNames(names, sheet). -/
def getColumnByNames (t : SheetTable) (names : List String) (sheet : Nat) : Int :=
  getColumnByNamesLoop t names sheet (t.numFields sheet)

/-- The descending collecting scan of Table::getColumnsByNames (lines
137-145): for (i = getNumFields(sheet) - 1; i >= 0; i--)
if (names.count(getColumnName(i)) > 0) r.push_back(i);
Note the source tests getColumnName(i) with its defaulted sheet argument 0,
not the sheet being scanned. -/
def getColumnsByNamesLoop (t : SheetTable) (names : List String) : Nat → List Nat
  | 0 => []
  | i + 1 =>
    if t.colName i 0 ∈ names then i :: getColumnsByNamesLoop t names i
    else getColumnsByNamesLoop t names i

/-- Table::getColumnsByNames(names, sheet). -/
def getColumnsByNames (t : SheetTable) (names : List String) (sheet : Nat) : List Nat :=
  getColumnsByNamesLoop t names (t.numFields sheet)

/-- A backend for Table::dumpRow: seek(key) either finds a cursor —
observed through the getText value of each of its getNumFields() fields —
or is absent. -/
structure RowTable where
  seek : Key → Option (List String)

/-- The field-joining loop of Table::dumpRow (lines 164-167):
for (i = 0; i < getNumFields(); i++) { if (i) r += ";"; r += getText(i); }
The argument n is the number of fields already folded into r. -/
def dumpRowLoop (cur : List String) : Nat → String
  | 0 => ""
  | m + 1 =>
    (if m ≠ 0 then dumpRowLoop cur m ++ ";" else dumpRowLoop cur m) ++ cur.getD m ""

/-- Table::dumpRow(key) (lines 161-172). -/
def dumpRow (t : RowTable) (k : Key) : String :=
  match t.seek k with
  | some cur => dumpRowLoop cur cur.length
  | none => "not found"

/-- Semicolon-joined field list, written from the spec's words: fields
joined by the separator ";" in field order. -/
def joinSemicolon : List String → String
  | [] => ""
  | [f] => f
  | f :: rest => f ++ ";" ++ joinSemicolon rest

/-- Table::hasNumericKey (lines 174-176):
key_type_.size() == 1 && is_numeric(key_type_.front()).  The predicate
is_numeric lives in ColumnType.h and is passed in abstractly; the head
default is never reached because of the size test. -/
def hasNumericKey (isNumeric : ColumnType → Bool) (keyType : List ColumnType) : Bool :=
  keyType.length == 1 && isNumeric (keyType.headD ColumnType.INTEGER)

/-- The value payload of a source field during Table::append, as read by
the cursor getters: getInteger, getDouble and getText.  Double values are
only moved, never computed with, so their carrier is inessential; an
integer carrier stands in for the opaque payload. -/
structure Field where
  typ : ColumnType
  isNull : Bool
  intVal : Int
  dblVal : Int
  textVal : String
deriving DecidableEq, Repr

/-- One source row as Table::append's traversal sees it: getRowKey() and
the per-field data. -/
structure Row where
  key : Key
  fields : List Field
deriving DecidableEq, Repr

/-- One observable call Table::append makes on self, its cursors or its
log, in order: begin / insert / typed bind / execute / commit / the final
getLog().append(other.getLog()). -/
inductive AppendOp
  | begin
  | insert (k : Key)
  | bindInt (v : Int) (present : Bool)
  | bindDouble (v : Int) (present : Bool)
  | bindText (s : String) (present : Bool)
  | execute
  | commit
  | logAppend
deriving DecidableEq, Repr

/-- The per-field switch of Table::append (lines 75-103): integer-family
types bind getInteger(i) with !is_null, DOUBLE binds getDouble(i) with
!is_null, text-family types bind getText(i) with !is_null, and BLOB and
VECTOR bind an empty absent value unconditionally. -/
def bindField (f : Field) : AppendOp :=
  match f.typ with
  | .BOOL | .ENUM | .INTEGER | .DATETIME | .DATE => .bindInt f.intVal (!f.isNull)
  | .DOUBLE => .bindDouble f.dblVal (!f.isNull)
  | .ANY | .TEXT | .URL | .TEXT_KEY | .BINARY_KEY | .CHAR | .VARCHAR =>
    .bindText f.textVal (!f.isNull)
  | .BLOB | .VECTOR => .bindText "" false

/-- The do/while row loop of Table::append (lines 70-110) over the rows
the source cursor will still visit, carrying the batch counter n:
if (n == 0) begin(); insert(getRowKey()); bind each field; execute();
if (++n == 4096) { commit(); n = 0; }  — and after the traversal,
if (n) commit(). -/
def appendLoop : List Row → Nat → List AppendOp
  | [], n => if n ≠ 0 then [AppendOp.commit] else []
  | r :: rest, n =>
    (if n = 0 then [AppendOp.begin] else []) ++
      AppendOp.insert r.key :: (r.fields.map bindField ++ [AppendOp.execute]) ++
      (if n + 1 = 4096 then AppendOp.commit :: appendLoop rest 0
       else appendLoop rest (n + 1))

/-- Table::append's full observable trace for a source whose seekBegin
traversal yields the given rows: nothing at all when seekBegin is absent
(empty source), otherwise the row loop started at n = 0 followed by the
single getLog().append(other.getLog()). -/
def appendTrace (rows : List Row) : List AppendOp :=
  match rows with
  | [] => []
  | _ => appendLoop rows 0 ++ [AppendOp.logAppend]

/-- Discriminators used to count the calls of one kind in a trace. -/
def isBegin : AppendOp → Bool
  | .begin => true
  | _ => false

/-- Commit discriminator. -/
def isCommit : AppendOp → Bool
  | .commit => true
  | _ => false

/-- Insert discriminator. -/
def isInsert : AppendOp → Bool
  | .insert _ => true
  | _ => false

/-- Log-concatenation discriminator. -/
def isLogAppend : AppendOp → Bool
  | .logAppend => true
  | _ => false

/-- A two-sheet backend: both sheets have one column; sheet 0's column is
named "b", sheet 1's column is named "a". -/
def exTwoSheets : SheetTable :=
  ⟨fun _ => 1, fun _ sheet => if sheet = 1 then "a" else "b"⟩

/-- A one-sheet backend with columns id(0), name(1), age(2), matching the
spec's worked example. -/
def exIdNameAge : SheetTable :=
  ⟨fun _ => 3, fun i _ => ["id", "name", "age"].getD i ""⟩

/-- A one-sheet backend with duplicate column names: n(0), n(1), z(2). -/
def exDupNames : SheetTable :=
  ⟨fun _ => 3, fun i _ => ["n", "n", "z"].getD i ""⟩

/-- A schema with exactly one column, so getNumFields() for the default
sheet is 1. -/
def exSchema1 : Schema :=
  ⟨[ColumnType.INTEGER], [⟨"id", ColumnType.INTEGER, true, false, 0⟩]⟩

/-- An empty-schema destination and a two-column source for exercising
the schema-copy phase of append. -/
def exSchemaEmpty : Schema :=
  ⟨[], []⟩

/-- Source schema: TEXT_KEY key, columns a and b. -/
def exSchemaSrc : Schema :=
  ⟨[ColumnType.TEXT_KEY],
   [⟨"a", ColumnType.INTEGER, true, false, 0⟩,
    ⟨"b", ColumnType.VARCHAR, false, true, 2⟩]⟩

/-- A backend whose row 1 exists and has a single field whose getText is
the string "not found". -/
def exSentinelRow : RowTable :=
  ⟨fun k => if k = 1 then some ["not found"] else none⟩

/-- A backend whose row 7 has the spec example's fields 7, Alice, true,
and which holds no other row. -/
def exAliceRow : RowTable :=
  ⟨fun k => if k = 7 then some ["7", "Alice", "true"] else none⟩

/-- C1: the code evaluated at the failing input.  On an empty filter map,
setFilter(0, {1}) followed by setFilter(0, {2}) leaves {1} stored for
column 0 — std::unordered_map::emplace does not overwrite an existing
entry, so the second call is a no-op and the state differs from that after
a single setFilter(0, {2}); hasFilter(0) is true afterwards. -/
theorem setFilter_second_call_keeps_first_set :
    getFilterAt (setFilter (setFilter [] 0 [1]) 0 [2]) 0 = some [1] ∧
    hasFilter (setFilter (setFilter [] 0 [1]) 0 [2]) 0 = true ∧
    setFilter (setFilter [] 0 [1]) 0 [2] ≠ setFilter [] 0 [2] := by
  decide

/-- C4: the code evaluated at the failing input.  addVarCharColumn reads
addColumn(name, VARCHAR, unique): the unique argument lands in addColumn's
nullable parameter and the nullable argument is dropped, so
addVarCharColumn("x", nullable = true, unique = false) yields a column
with nullable = false, and addVarCharColumn("x", false, true) yields
nullable = true, unique = false — not the forwarded flags the claim
states.  The other flagged wrappers do forward their arguments. -/
theorem addVarCharColumn_misforwards_flags :
    addVarCharColumn "x" true false = addColumnCall "x" ColumnType.VARCHAR false false (-1) ∧
    (addVarCharColumn "x" true false).nullable = false ∧
    (addVarCharColumn "x" false true).nullable = true ∧
    (addVarCharColumn "x" false true).unique = false ∧
    addIntegerColumn "x" true false = addColumnCall "x" ColumnType.INTEGER true false (-1) ∧
    addBoolColumn "x" false true = addColumnCall "x" ColumnType.BOOL false true (-1) ∧
    addDoubleColumn "x" false true 2 = addColumnCall "x" ColumnType.DOUBLE false true 2 := by
  decide

/-- C5 counterexample: on a backend whose sheet 1 column 0 is named "a"
while sheet 0's column 0 is named "b", getColumnsByNames({"a"}, 1) returns
the empty list even though column 0 of sheet 1 is named "a", and
getColumnsByNames({"b"}, 1) returns [0]: the scan tests the default
sheet's column names, not those of the requested sheet. -/
theorem getColumnsByNames_misses_sheet_name :
    exTwoSheets.numFields 1 = 1 ∧
    exTwoSheets.colName 0 1 ∈ ["a"] ∧
    getColumnsByNames exTwoSheets ["a"] 1 = [] ∧
    getColumnsByNames exTwoSheets ["b"] 1 = [0] := by
  decide

/-- C8 counterexample: setFilter does not validate its column index, so
after the single call setFilter(5, {1}) on a table whose default sheet has
one column, the filter map holds the key 5, which is not < 1. -/
theorem setFilter_accepts_invalid_column :
    schemaNumFields exSchema1 = 1 ∧
    (applyFilterOps [] [FilterOp.set 5 [1]]).map Prod.fst = [5] ∧
    ¬ (∀ c ∈ (applyFilterOps [] [FilterOp.set 5 [1]]).map Prod.fst,
        c < (schemaNumFields exSchema1 : Int)) := by
  decide

/-- C9 counterexample: on a backend whose row 1 exists and has one field
whose getText is the string "not found", dumpRow(1) returns "not found"
although seek(1) is present — the sentinel is not distinguishable from
row content, so "returns not-found iff seek is absent" fails in the
only-if direction. -/
theorem dumpRow_sentinel_collision :
    (exSentinelRow.seek 1).isSome = true ∧
    dumpRow exSentinelRow 1 = "not found" := by
  decide

/-- The descending name scan returns -1 when no scanned index matches. -/
theorem getColumnByNameLoop_eq_neg_one (t : SheetTable) (name : String) (sheet : Nat)
    (n : Nat) (h : ∀ i, i < n → t.colName i sheet ≠ name) :
    getColumnByNameLoop t name sheet n = -1 := by
  induction n with
  | zero => rfl
  | succ m ih =>
    rw [getColumnByNameLoop, if_neg (h m (Nat.lt_succ_self m))]
    exact ih (fun i hi => h i (Nat.lt_succ_of_lt hi))

/-- The descending name scan returns the greatest matching index below its
bound. -/
theorem getColumnByNameLoop_eq_of_top_match (t : SheetTable) (name : String)
    (sheet : Nat) (n i : Nat) (hin : i < n) (hmatch : t.colName i sheet = name)
    (habove : ∀ j, i < j → j < n → t.colName j sheet ≠ name) :
    getColumnByNameLoop t name sheet n = (i : Int) := by
  induction n with
  | zero => exact absurd hin (Nat.not_lt_zero i)
  | succ m ih =>
    by_cases hm : t.colName m sheet = name
    · have him : i = m := by
        by_contra hne
        exact habove m (Nat.lt_of_le_of_ne (Nat.le_of_lt_succ hin) hne)
          (Nat.lt_succ_self m) hm
      rw [getColumnByNameLoop, him, if_pos hm]
    · have him : i ≠ m := fun he => hm (he ▸ hmatch)
      rw [getColumnByNameLoop, if_neg hm]
      exact ih (Nat.lt_of_le_of_ne (Nat.le_of_lt_succ hin) him)
        (fun j h1 h2 => habove j h1 (Nat.lt_succ_of_lt h2))

/-- The descending set-membership scan returns -1 when no scanned index
matches. -/
theorem getColumnByNamesLoop_eq_neg_one (t : SheetTable) (names : List String)
    (sheet : Nat) (n : Nat) (h : ∀ i, i < n → t.colName i sheet ∉ names) :
    getColumnByNamesLoop t names sheet n = -1 := by
  induction n with
  | zero => rfl
  | succ m ih =>
    rw [getColumnByNamesLoop, if_neg (h m (Nat.lt_succ_self m))]
    exact ih (fun i hi => h i (Nat.lt_succ_of_lt hi))

/-- The descending set-membership scan returns the greatest matching index
below its bound. -/
theorem getColumnByNamesLoop_eq_of_top_match (t : SheetTable) (names : List String)
    (sheet : Nat) (n i : Nat) (hin : i < n) (hmatch : t.colName i sheet ∈ names)
    (habove : ∀ j, i < j → j < n → t.colName j sheet ∉ names) :
    getColumnByNamesLoop t names sheet n = (i : Int) := by
  induction n with
  | zero => exact absurd hin (Nat.not_lt_zero i)
  | succ m ih =>
    by_cases hm : t.colName m sheet ∈ names
    · have him : i = m := by
        by_contra hne
        exact habove m (Nat.lt_of_le_of_ne (Nat.le_of_lt_succ hin) hne)
          (Nat.lt_succ_self m) hm
      rw [getColumnByNamesLoop, him, if_pos hm]
    · have him : i ≠ m := fun he => hm (he ▸ hmatch)
      rw [getColumnByNamesLoop, if_neg hm]
      exact ih (Nat.lt_of_le_of_ne (Nat.le_of_lt_succ hin) him)
        (fun j h1 h2 => habove j h1 (Nat.lt_succ_of_lt h2))

/-- Membership in the collecting scan: exactly the indices below the bound
whose default-sheet column name is in the set. -/
theorem getColumnsByNamesLoop_mem (t : SheetTable) (names : List String) (n : Nat) :
    ∀ j, j ∈ getColumnsByNamesLoop t names n ↔ j < n ∧ t.colName j 0 ∈ names := by
  induction n with
  | zero =>
    intro j
    simp [getColumnsByNamesLoop]
  | succ m ih =>
    intro j
    rw [getColumnsByNamesLoop]
    by_cases h : t.colName m 0 ∈ names
    · rw [if_pos h, List.mem_cons, ih j]
      constructor
      · rintro (rfl | ⟨hj, hmem⟩)
        · exact ⟨Nat.lt_succ_self j, h⟩
        · exact ⟨Nat.lt_succ_of_lt hj, hmem⟩
      · rintro ⟨hj, hmem⟩
        rcases Nat.lt_succ_iff_lt_or_eq.mp hj with hj' | rfl
        · exact Or.inr ⟨hj', hmem⟩
        · exact Or.inl rfl
    · rw [if_neg h, ih j]
      constructor
      · rintro ⟨hj, hmem⟩
        exact ⟨Nat.lt_succ_of_lt hj, hmem⟩
      · rintro ⟨hj, hmem⟩
        rcases Nat.lt_succ_iff_lt_or_eq.mp hj with hj' | rfl
        · exact ⟨hj', hmem⟩
        · exact absurd hmem h

/-- The collecting scan emits indices in strictly descending order. -/
theorem getColumnsByNamesLoop_desc (t : SheetTable) (names : List String) (n : Nat) :
    (getColumnsByNamesLoop t names n).Pairwise (fun a b => b < a) := by
  induction n with
  | zero => simp [getColumnsByNamesLoop]
  | succ m ih =>
    rw [getColumnsByNamesLoop]
    by_cases h : t.colName m 0 ∈ names
    · rw [if_pos h]
      refine List.Pairwise.cons (fun b hb => ?_) ih
      exact ((getColumnsByNamesLoop_mem t names m b).mp hb).1
    · rw [if_neg h]
      exact ih

/-- C5 (amended): for every sheet s and name set N, getColumnsByNames(N, s)
returns, in strictly descending order, exactly the indices i below
getNumFields(s) whose DEFAULT-SHEET column name getColumnName(i, 0) is a
member of N — the scan ranges over sheet s's field count but tests sheet
0's names, because the source calls getColumnName(i) with its defaulted
sheet argument.  For the default sheet s = 0 this coincides with the
claim; the empty list results when no index matches. -/
theorem getColumnsByNames_desc_default_sheet_names (t : SheetTable)
    (names : List String) (sheet : Nat) :
    (getColumnsByNames t names sheet).Pairwise (fun a b => b < a) ∧
    (∀ j, j ∈ getColumnsByNames t names sheet ↔
      j < t.numFields sheet ∧ t.colName j 0 ∈ names) := by
  exact ⟨getColumnsByNamesLoop_desc t names (t.numFields sheet),
    getColumnsByNamesLoop_mem t names (t.numFields sheet)⟩

/-- C6: for every sheet, getColumnByName returns the highest index whose
name equals the argument and -1 when none does (so with duplicate names
the last-added column wins), and getColumnByNames returns the highest
index whose name is a member of the set, or -1; over columns id(0),
name(1), age(2) the set-lookup for id-or-name returns 1, and over the
duplicate names n(0), n(1), z(2) the name-lookup for n returns 1. -/
theorem getColumnByName_highest_index_wins (t : SheetTable) (name : String)
    (names : List String) (sheet : Nat) :
    ((∀ i, i < t.numFields sheet → t.colName i sheet ≠ name) →
      getColumnByName t name sheet = -1) ∧
    (∀ i, i < t.numFields sheet → t.colName i sheet = name →
      (∀ j, i < j → j < t.numFields sheet → t.colName j sheet ≠ name) →
      getColumnByName t name sheet = (i : Int)) ∧
    ((∀ i, i < t.numFields sheet → t.colName i sheet ∉ names) →
      getColumnByNames t names sheet = -1) ∧
    (∀ i, i < t.numFields sheet → t.colName i sheet ∈ names →
      (∀ j, i < j → j < t.numFields sheet → t.colName j sheet ∉ names) →
      getColumnByNames t names sheet = (i : Int)) ∧
    getColumnByNames exIdNameAge ["id", "name"] 0 = 1 ∧
    getColumnByName exDupNames "n" 0 = 1 := by
  refine ⟨fun h => getColumnByNameLoop_eq_neg_one t name sheet _ h,
    fun i hi hm ha => getColumnByNameLoop_eq_of_top_match t name sheet _ i hi hm ha,
    fun h => getColumnByNamesLoop_eq_neg_one t names sheet _ h,
    fun i hi hm ha => getColumnByNamesLoop_eq_of_top_match t names sheet _ i hi hm ha,
    by decide, by decide⟩

/-- Reading a list back through indexwise getD over its index range is the
same as mapping over the list. -/
theorem range_length_map_getD {α β : Type} (l : List α) (f : α → β) (d : α) :
    (List.range l.length).map (fun i => f (l.getD i d)) = l.map f := by
  induction l with
  | nil => rfl
  | cons a l ih =>
    rw [List.length_cons, List.range_succ_eq_map, List.map_cons, List.map_map,
      List.map_cons]
    simp only [Function.comp_def, List.getD_cons_zero, List.getD_cons_succ]
    rw [ih]

/-- Folding a list of addCol mutations appends the columns in order. -/
theorem applySchemaOps_addCols (s : Schema) (cols : List Column) :
    applySchemaOps s (cols.map SchemaOp.addCol) = ⟨s.keyType, s.columns ++ cols⟩ := by
  induction cols generalizing s with
  | nil => simp [applySchemaOps]
  | cons c cols ih =>
    rw [List.map_cons]
    show applySchemaOps (applySchemaOp s (SchemaOp.addCol c))
      (cols.map SchemaOp.addCol) = _
    rw [ih]
    simp [applySchemaOp]

/-- C3: append copies schema exactly when the destination has zero
columns: it then issues setKeyType(other key type) followed by one
addColumn per source column in ascending order with that column's
attributes, leaving the destination schema equal to the source's; with at
least one column present it issues no schema mutation at all, so a second
append onto the now non-empty destination re-copies nothing. -/
theorem append_schema_bootstrap (self other other' : Schema) :
    (appendSchemaOps self other =
      if schemaNumFields self = 0 then
        SchemaOp.setKeyType other.keyType :: other.columns.map SchemaOp.addCol
      else []) ∧
    (applySchemaOps self (appendSchemaOps self other) =
      if schemaNumFields self = 0 then Schema.mk other.keyType other.columns
      else self) ∧
    (other.columns ≠ [] →
      appendSchemaOps (applySchemaOps self (appendSchemaOps self other)) other' = []) ∧
    appendSchemaOps exSchemaEmpty exSchemaSrc =
      [SchemaOp.setKeyType [ColumnType.TEXT_KEY],
       SchemaOp.addCol ⟨"a", ColumnType.INTEGER, true, false, 0⟩,
       SchemaOp.addCol ⟨"b", ColumnType.VARCHAR, false, true, 2⟩] ∧
    appendSchemaOps (applySchemaOps exSchemaEmpty
      (appendSchemaOps exSchemaEmpty exSchemaSrc)) exSchemaSrc = [] := by
  have hops : appendSchemaOps self other =
      (if schemaNumFields self = 0 then
        SchemaOp.setKeyType other.keyType :: other.columns.map SchemaOp.addCol
       else []) := by
    unfold appendSchemaOps
    by_cases h : schemaNumFields self = 0
    · rw [if_pos h, if_pos h]
      simp only [getColumnRecord, schemaNumFields]
      rw [range_length_map_getD]
    · rw [if_neg h, if_neg h]
  have happ : applySchemaOps self (appendSchemaOps self other) =
      (if schemaNumFields self = 0 then Schema.mk other.keyType other.columns
       else self) := by
    rw [hops]
    by_cases h : schemaNumFields self = 0
    · rw [if_pos h, if_pos h]
      have hcols : self.columns = [] := List.length_eq_zero.mp h
      show applySchemaOps (applySchemaOp self (SchemaOp.setKeyType other.keyType))
        (other.columns.map SchemaOp.addCol) = _
      rw [applySchemaOps_addCols]
      simp [applySchemaOp, hcols]
    · rw [if_neg h, if_neg h]
      rfl
  refine ⟨hops, happ, fun hne => ?_, by decide, by decide⟩
  rw [happ]
  by_cases h : schemaNumFields self = 0
  · rw [if_pos h]
    unfold appendSchemaOps
    rw [if_neg (by simpa [schemaNumFields, List.length_eq_zero] using hne)]
  · rw [if_neg h]
    unfold appendSchemaOps
    rw [if_neg h]

/-- A field bind is never a transaction, insert or log call. -/
theorem bindField_not_control (f : Field) :
    isCommit (bindField f) = false ∧ isBegin (bindField f) = false ∧
    isInsert (bindField f) = false ∧ isLogAppend (bindField f) = false := by
  obtain ⟨t, nl, iv, dv, tv⟩ := f
  cases t <;> exact ⟨rfl, rfl, rfl, rfl⟩

/-- Counting a control discriminator over the binds of a row gives 0. -/
theorem countP_map_bindField (p : AppendOp → Bool)
    (hp : ∀ f : Field, p (bindField f) = false) (fs : List Field) :
    (fs.map bindField).countP p = 0 := by
  rw [List.countP_eq_zero]
  intro a ha
  obtain ⟨f, _, rfl⟩ := List.mem_map.mp ha
  simp [hp f]

/-- The row loop of append commits ceiling((n + rows)/4096) times, where n
is the number of rows already in the open batch. -/
theorem appendLoop_countP_commit (rows : List Row) :
    ∀ n, n < 4096 →
      (appendLoop rows n).countP isCommit = (n + rows.length + 4095) / 4096 := by
  induction rows with
  | nil =>
    intro n hn
    rw [appendLoop]
    by_cases h : n = 0
    · rw [if_neg (by simp [h])]
      simp only [List.countP_nil, List.length_nil]
      omega
    · rw [if_pos h]
      have h1 : ([AppendOp.commit].countP isCommit) = 1 := rfl
      rw [h1, List.length_nil]
      omega
  | cons r rest ih =>
    intro n hn
    rw [appendLoop]
    have hbind : (r.fields.map bindField).countP isCommit =
        0 := countP_map_bindField _ (fun f => (bindField_not_control f).1) r.fields
    by_cases h0 : n = 0 <;> by_cases h4 : n + 1 = 4096
    · exact absurd h4 (by omega)
    · rw [if_pos h0, if_neg h4]
      have ihn := ih (n + 1) (by omega)
      simp [List.countP_append, List.countP_cons, hbind, isCommit]
      omega
    · rw [if_neg h0, if_pos h4]
      have ihn := ih 0 (by omega)
      simp [List.countP_append, List.countP_cons, hbind, isCommit]
      omega
    · rw [if_neg h0, if_neg h4]
      have ihn := ih (n + 1) (by omega)
      simp [List.countP_append, List.countP_cons, hbind, isCommit]
      omega

/-- The row loop of append calls begin once per batch it starts: with n
rows already in an open batch, the begins plus the one that opened the
current batch total ceiling((n + rows)/4096). -/
theorem appendLoop_countP_begin (rows : List Row) :
    ∀ n, n < 4096 →
      (appendLoop rows n).countP isBegin + (if n = 0 then 0 else 1) =
        (n + rows.length + 4095) / 4096 := by
  induction rows with
  | nil =>
    intro n hn
    rw [appendLoop]
    by_cases h : n = 0
    · rw [if_neg (by simp [h]), if_pos h]
      simp only [List.countP_nil, List.length_nil]
      omega
    · rw [if_pos h, if_neg h]
      have h1 : ([AppendOp.commit].countP isBegin) = 0 := rfl
      rw [h1, List.length_nil]
      omega
  | cons r rest ih =>
    intro n hn
    rw [appendLoop]
    have hbind : (r.fields.map bindField).countP isBegin =
        0 := countP_map_bindField _ (fun f => (bindField_not_control f).2.1) r.fields
    by_cases h0 : n = 0 <;> by_cases h4 : n + 1 = 4096
    · exact absurd h4 (by omega)
    · rw [if_pos h0, if_neg h4, if_pos h0]
      have ihn := ih (n + 1) (by omega)
      rw [if_neg (by omega)] at ihn
      simp [List.countP_append, List.countP_cons, hbind, isBegin]
      omega
    · rw [if_neg h0, if_pos h4, if_neg h0]
      have ihn := ih 0 (by omega)
      rw [if_pos rfl] at ihn
      simp [List.countP_append, List.countP_cons, hbind, isBegin]
      omega
    · rw [if_neg h0, if_neg h4, if_neg h0]
      have ihn := ih (n + 1) (by omega)
      rw [if_neg (by omega)] at ihn
      simp [List.countP_append, List.countP_cons, hbind, isBegin]
      omega

/-- The row loop of append inserts exactly one row per source row. -/
theorem appendLoop_countP_insert (rows : List Row) :
    ∀ n, (appendLoop rows n).countP isInsert = rows.length := by
  induction rows with
  | nil =>
    intro n
    rw [appendLoop]
    by_cases h : n = 0
    · rw [if_neg (by simp [h])]
      rfl
    · rw [if_pos h]
      rfl
  | cons r rest ih =>
    intro n
    rw [appendLoop]
    have hbind : (r.fields.map bindField).countP isInsert =
        0 := countP_map_bindField _ (fun f => (bindField_not_control f).2.2.1) r.fields
    by_cases h0 : n = 0 <;> by_cases h4 : n + 1 = 4096
    · exact absurd h4 (by omega)
    · rw [if_pos h0, if_neg h4]
      have ihn := ih (n + 1)
      simp [List.countP_append, List.countP_cons, hbind, isInsert]
      omega
    · rw [if_neg h0, if_pos h4]
      have ihn := ih 0
      simp [List.countP_append, List.countP_cons, hbind, isInsert]
      omega
    · rw [if_neg h0, if_neg h4]
      have ihn := ih (n + 1)
      simp [List.countP_append, List.countP_cons, hbind, isInsert]
      omega

/-- The row loop of append never touches the log. -/
theorem appendLoop_countP_logAppend (rows : List Row) :
    ∀ n, (appendLoop rows n).countP isLogAppend = 0 := by
  induction rows with
  | nil =>
    intro n
    rw [appendLoop]
    by_cases h : n = 0
    · rw [if_neg (by simp [h])]
      rfl
    · rw [if_pos h]
      rfl
  | cons r rest ih =>
    intro n
    rw [appendLoop]
    have hbind : (r.fields.map bindField).countP isLogAppend =
        0 := countP_map_bindField _ (fun f => (bindField_not_control f).2.2.2) r.fields
    by_cases h0 : n = 0 <;> by_cases h4 : n + 1 = 4096
    · exact absurd h4 (by omega)
    · rw [if_pos h0, if_neg h4]
      simp [List.countP_append, List.countP_cons, hbind, isLogAppend, ih]
    · rw [if_neg h0, if_pos h4]
      simp [List.countP_append, List.countP_cons, hbind, isLogAppend, ih]
    · rw [if_neg h0, if_neg h4]
      simp [List.countP_append, List.countP_cons, hbind, isLogAppend, ih]

/-- C2: over a source traversal of row_count rows, append commits exactly
ceiling(row_count/4096) times (Nat formula (row_count + 4095) / 4096: 1
commit for 1 row, 1 for 4096 rows, 2 for 4097), calls begin exactly once
per started batch (the same count), inserts exactly row_count rows, and
concatenates the source log onto its own exactly once, as the final
operation after the traversal; for the empty source (seekBegin absent)
the whole trace is empty — no begin, commit, insert or log change.  The
last conjunct evaluates the full one-row trace. -/
theorem append_batched_commits (rows : List Row) :
    (appendTrace rows).countP isCommit = (rows.length + 4095) / 4096 ∧
    (appendTrace rows).countP isBegin = (rows.length + 4095) / 4096 ∧
    (appendTrace rows).countP isInsert = rows.length ∧
    (appendTrace rows).countP isLogAppend = (if rows = [] then 0 else 1) ∧
    (appendTrace rows).getLast? =
      (if rows = [] then none else some AppendOp.logAppend) ∧
    appendTrace [] = [] ∧
    appendTrace [⟨0, []⟩] = [AppendOp.begin, AppendOp.insert 0, AppendOp.execute,
      AppendOp.commit, AppendOp.logAppend] := by
  cases rows with
  | nil => exact ⟨rfl, rfl, rfl, rfl, rfl, rfl, rfl⟩
  | cons r rest =>
    have hne : r :: rest ≠ ([] : List Row) := by simp
    have htrace : appendTrace (r :: rest) =
        appendLoop (r :: rest) 0 ++ [AppendOp.logAppend] := rfl
    refine ⟨?_, ?_, ?_, ?_, ?_, rfl, rfl⟩
    · rw [htrace, List.countP_append]
      have h1 : ([AppendOp.logAppend].countP isCommit) = 0 := rfl
      rw [h1, appendLoop_countP_commit (r :: rest) 0 (by omega)]
      omega
    · rw [htrace, List.countP_append]
      have h1 : ([AppendOp.logAppend].countP isBegin) = 0 := rfl
      have h2 := appendLoop_countP_begin (r :: rest) 0 (by omega)
      rw [if_pos rfl] at h2
      rw [h1]
      omega
    · rw [htrace, List.countP_append]
      have h1 : ([AppendOp.logAppend].countP isInsert) = 0 := rfl
      rw [h1, appendLoop_countP_insert (r :: rest) 0]
      omega
    · rw [htrace, List.countP_append, if_neg hne]
      have h1 : ([AppendOp.logAppend].countP isLogAppend) = 1 := rfl
      rw [h1, appendLoop_countP_logAppend (r :: rest) 0]
    · rw [htrace, if_neg hne]
      exact List.getLast?_concat _

/-- C7: in append's per-field dispatch, BLOB and VECTOR columns always
bind an empty text value marked absent, whatever the source field holds
and whether or not it is null; integer-family columns (BOOL, ENUM,
INTEGER, DATETIME, DATE) bind getInteger with presence !isNull; DOUBLE
binds getDouble with presence !isNull; text-family columns (ANY, TEXT,
URL, TEXT_KEY, BINARY_KEY, CHAR, VARCHAR) bind getText with presence
!isNull.  The last conjunct places these binds inside the append trace of
a one-row source. -/
theorem append_bind_dispatch (k : Key) (fs : List Field) :
    (∀ f : Field, (f.typ = ColumnType.BLOB ∨ f.typ = ColumnType.VECTOR) →
      bindField f = AppendOp.bindText "" false) ∧
    (∀ f : Field,
      f.typ ∈ [ColumnType.BOOL, ColumnType.ENUM, ColumnType.INTEGER,
        ColumnType.DATETIME, ColumnType.DATE] →
      bindField f = AppendOp.bindInt f.intVal (!f.isNull)) ∧
    (∀ f : Field, f.typ = ColumnType.DOUBLE →
      bindField f = AppendOp.bindDouble f.dblVal (!f.isNull)) ∧
    (∀ f : Field,
      f.typ ∈ [ColumnType.ANY, ColumnType.TEXT, ColumnType.URL,
        ColumnType.TEXT_KEY, ColumnType.BINARY_KEY, ColumnType.CHAR,
        ColumnType.VARCHAR] →
      bindField f = AppendOp.bindText f.textVal (!f.isNull)) ∧
    appendTrace [⟨k, fs⟩] =
      AppendOp.begin :: AppendOp.insert k ::
        (fs.map bindField ++ [AppendOp.execute, AppendOp.commit, AppendOp.logAppend]) := by
  refine ⟨?_, ?_, ?_, ?_, ?_⟩
  · rintro ⟨t, nl, iv, dv, tv⟩ (rfl | rfl) <;> rfl
  · rintro ⟨t, nl, iv, dv, tv⟩ ht
    simp only [List.mem_cons, List.not_mem_nil, or_false] at ht
    rcases ht with rfl | rfl | rfl | rfl | rfl <;> rfl
  · rintro ⟨t, nl, iv, dv, tv⟩ rfl
    rfl
  · rintro ⟨t, nl, iv, dv, tv⟩ ht
    simp only [List.mem_cons, List.not_mem_nil, or_false] at ht
    rcases ht with rfl | rfl | rfl | rfl | rfl | rfl | rfl <;> rfl
  · show appendLoop [⟨k, fs⟩] 0 ++ [AppendOp.logAppend] = _
    rw [appendLoop]
    rw [if_pos rfl, if_neg (by omega)]
    rw [appendLoop, if_pos (by omega)]
    simp [List.append_assoc]

/-- Keys of the filter map stay below N along any setFilter/clearFilter
sequence whose setFilter calls all use a column index below N. -/
theorem applyFilterOps_cols_bounded (N : Int) :
    ∀ (ops : List FilterOp) (m : FilterMap),
      (∀ c ∈ m.map Prod.fst, c < N) →
      (∀ col keys, FilterOp.set col keys ∈ ops → col < N) →
      ∀ c ∈ (applyFilterOps m ops).map Prod.fst, c < N := by
  intro ops
  induction ops with
  | nil =>
    intro m hm _
    simpa [applyFilterOps] using hm
  | cons op rest ih =>
    intro m hm hops
    show ∀ c ∈ (applyFilterOps (applyFilterOp m op) rest).map Prod.fst, c < N
    refine ih (applyFilterOp m op) ?_
      (fun col keys hmem => hops col keys (List.mem_cons_of_mem _ hmem))
    cases op with
    | set col keys =>
      intro c hc
      simp only [applyFilterOp, setFilter] at hc
      by_cases hp : filterCount m col != 0
      · rw [if_pos hp] at hc
        exact hm c hc
      · rw [if_neg hp] at hc
        rcases List.mem_map.mp hc with ⟨e, he, rfl⟩
        rcases List.mem_cons.mp he with rfl | he'
        · exact hops col keys (List.mem_cons_self _ _)
        · exact hm _ (List.mem_map_of_mem Prod.fst he')
    | clear col =>
      intro c hc
      simp only [applyFilterOp, clearFilter] at hc
      rcases List.mem_map.mp hc with ⟨e, he, rfl⟩
      exact hm _ (List.mem_map_of_mem Prod.fst (List.mem_of_mem_filter he))

/-- C8 (amended): Table performs no validation of the column index: keys
enter the filter map only through setFilter, so the invariant that every
key of getFilter() is below getNumFields(0) holds after a sequence of
setFilter/clearFilter calls exactly under the precondition that every
setFilter call in it used a column index below getNumFields(0); the code
itself does not enforce it (see the counterexample). -/
theorem filter_cols_bounded_of_valid_set_calls (ops : List FilterOp) (N : Int)
    (h : ∀ col keys, FilterOp.set col keys ∈ ops → col < N) :
    ∀ c ∈ (applyFilterOps [] ops).map Prod.fst, c < N :=
  applyFilterOps_cols_bounded N ops [] (by simp) h

/-- C8 witness: a concrete run of setFilter(0, {1}); clearFilter(5);
setFilter(1, {}) against a bound of 2 columns, instantiating the amended
invariant at key 0 of the resulting map. -/
theorem filter_cols_bounded_witness :
    (0 : Int) ∈ (applyFilterOps []
      [FilterOp.set 0 [1], FilterOp.clear 5, FilterOp.set 1 []]).map Prod.fst ∧
    (0 : Int) < 2 := by
  refine ⟨by decide, ?_⟩
  refine filter_cols_bounded_of_valid_set_calls
    [FilterOp.set 0 [1], FilterOp.clear 5, FilterOp.set 1 []] 2 ?_ 0 (by decide)
  intro col keys hmem
  rcases List.mem_cons.mp hmem with h1 | hmem
  · injection h1 with h2 h3
    omega
  rcases List.mem_cons.mp hmem with h1 | hmem
  · exact absurd h1 (by simp)
  rcases List.mem_cons.mp hmem with h1 | hmem
  · injection h1 with h2 h3
    omega
  · exact absurd hmem (List.not_mem_nil _)

/-- Unconditional unfolding of the semicolon join at two or more
elements. -/
theorem joinSemicolon_cons_cons (f g : String) (rest : List String) :
    joinSemicolon (f :: g :: rest) = f ++ ";" ++ joinSemicolon (g :: rest) := rfl

/-- Appending one string to a non-empty semicolon join appends one
separator and the string. -/
theorem joinSemicolon_append_singleton (x : String) :
    ∀ (l : List String) (y : String),
      joinSemicolon ((y :: l) ++ [x]) = joinSemicolon (y :: l) ++ ";" ++ x := by
  intro l
  induction l with
  | nil =>
    intro y
    rfl
  | cons z l2 ih =>
    intro y
    rw [List.cons_append, List.cons_append, joinSemicolon_cons_cons,
      ← List.cons_append, ih z, joinSemicolon_cons_cons]
    simp [String.append_assoc]

/-- Appending one string to a semicolon join appends one separator and the
string, except onto the empty join. -/
theorem joinSemicolon_concat (l : List String) (x : String) :
    joinSemicolon (l ++ [x]) =
      if l = [] then x else joinSemicolon l ++ ";" ++ x := by
  cases l with
  | nil => simp [joinSemicolon]
  | cons y l2 =>
    rw [if_neg (by simp)]
    exact joinSemicolon_append_singleton x l2 y

/-- The dumpRow field loop over the first n fields equals the semicolon
join of those fields. -/
theorem dumpRowLoop_eq_joinSemicolon (cur : List String) :
    ∀ n, n ≤ cur.length → dumpRowLoop cur n = joinSemicolon (cur.take n) := by
  intro n
  induction n with
  | zero =>
    intro _
    rfl
  | succ m ih =>
    intro h
    have hm : m < cur.length := h
    have hget : cur.getD m "" = cur.get ⟨m, hm⟩ := by
      rw [List.getD_eq_getElem?_getD, List.getElem?_eq_getElem hm]
      rfl
    have htake : cur.take (m + 1) = cur.take m ++ [cur.get ⟨m, hm⟩] := by
      rw [List.take_succ, List.getElem?_eq_getElem hm]
      rfl
    rw [dumpRowLoop, htake, joinSemicolon_concat, ih (Nat.le_of_lt hm), hget]
    by_cases hm0 : m = 0
    · subst hm0
      rw [if_neg (by simp), if_pos (by simp)]
      show "" ++ _ = _
      rw [String.empty_append]
    · rw [if_pos hm0, if_neg ?_]
      intro hnil
      have : (cur.take m).length = 0 := by rw [hnil]; rfl
      rw [List.length_take] at this
      omega

/-- C9 (amended): dumpRow(key) returns the literal string "not found"
whenever seek(key) is absent, and when seek(key) finds a cursor it returns
the getText representations of all its fields joined by ";" in field
order — for fields 7, Alice, true the result is "7;Alice;true".  (The
converse of the first part does not hold: a found row whose joined fields
happen to read "not found" is indistinguishable, see the
counterexample.) -/
theorem dumpRow_join_or_sentinel (t : RowTable) (k : Key) :
    (t.seek k = none → dumpRow t k = "not found") ∧
    (∀ cur, t.seek k = some cur → dumpRow t k = joinSemicolon cur) ∧
    dumpRow exAliceRow 7 = "7;Alice;true" ∧
    dumpRow exAliceRow 8 = "not found" := by
  refine ⟨fun h => ?_, fun cur h => ?_, by decide, by decide⟩
  · unfold dumpRow
    rw [h]
  · unfold dumpRow
    rw [h]
    show dumpRowLoop cur cur.length = joinSemicolon cur
    rw [dumpRowLoop_eq_joinSemicolon cur cur.length (Nat.le_refl _), List.take_length]

/-- C10: hasNumericKey() is true exactly when the key type sequence is a
single column type on which the is_numeric predicate holds; it is false
for the empty key, for every composite key, and for a single non-numeric
key. -/
theorem hasNumericKey_single_numeric (isNumeric : ColumnType → Bool)
    (keyType : List ColumnType) (c d : ColumnType) (rest : List ColumnType) :
    (hasNumericKey isNumeric keyType = true ↔
      ∃ e, keyType = [e] ∧ isNumeric e = true) ∧
    hasNumericKey isNumeric [] = false ∧
    hasNumericKey isNumeric (c :: d :: rest) = false ∧
    hasNumericKey isNumeric [c] = isNumeric c := by
  refine ⟨?_, rfl, ?_, ?_⟩
  · cases keyType with
    | nil => simp [hasNumericKey]
    | cons a l =>
      cases l with
      | nil => simp [hasNumericKey]
      | cons b l2 => simp [hasNumericKey]
  · simp [hasNumericKey]
  · simp [hasNumericKey]

end Sqldb
